import Mathlib

/-!
Shallow embedding of the `uni-calc` expression calculator
(src/lexer.rs, src/parser.rs, src/eval.rs), together with proofs
about the claims of its specification.

Modelling conventions:
* Rust `f64` is idealized as `ℝ`; the mathematical functions
  (`sqrt`, `sin`, `cos`, `powf`, ...) become their exact real
  counterparts from Mathlib.
* `eyre` error reports are modelled as the `String` messages the
  source constructs; a fallible Rust function returning
  `Result<T>` becomes `Except String T`.
* General recursion (the token loop of `Lexer::new`, the recursive
  descent of the parser) is made structural with an explicit fuel
  parameter; running out of fuel yields the distinguished error
  `"fuel"`, which the source never produces, so any other outcome
  coincides with the source's behaviour.  Safety/invariant theorems
  are stated for every fuel value.
-/

namespace UniCalc

/-- Binary operators (`enum Op`, src/lexer.rs). -/
inductive Op
  | add
  | sub
  | mul
  | div
  | pow
deriving DecidableEq

/-- Named functions (`enum Func`, src/lexer.rs).  `log` and `root`
carry the numeric parameter parsed from the identifier suffix. -/
inductive Func
  | abs
  | sqrt
  | log (base : ℝ)
  | sin
  | cos
  | tg
  | ctg
  | asin
  | acos
  | atan
  | exp
  | root (base : ℝ)

/-- Tokens (`enum Token`, src/lexer.rs). -/
inductive Token
  | literal (v : ℝ)
  | operator (op : Op)
  | function (f : Func)
  | leftBracket
  | rightBracket
  | End

/-- Character class of `IDENTS` in `Lexer::parse_token`:
exactly the ASCII letters, which is what `Char.isAlpha` tests. -/
def isIdentChar (c : Char) : Bool := c.isAlpha

/-- Character class of `DIGITS` in `Lexer::parse_token`:
the ASCII digits together with the decimal point. -/
def isDigitChar (c : Char) : Bool := c.isDigit || c = '.'

/-- Value of a run of ASCII digits, most significant first
(the integer semantics underlying Rust's float parsing). -/
def digitsToNat (l : List Char) : ℕ :=
  l.foldl (fun acc c => acc * 10 + (c.toNat - 48)) 0

/-- Exact value of a decimal digits-and-dot buffer: integer part
plus fractional part.  Models the value computed by
`buffer.parse::<f64>()` in `Lexer::parse_token` (idealized to the
exact decimal rather than the nearest double). -/
noncomputable def decimalValue (buffer : List Char) : ℝ :=
  let intPart := buffer.takeWhile (fun c => c ≠ '.')
  let rest := buffer.dropWhile (fun c => c ≠ '.')
  let frac := rest.drop 1
  (digitsToNat intPart : ℝ) + (digitsToNat frac : ℝ) / (10 : ℝ) ^ frac.length

/-- Whether `buffer.parse::<f64>()` succeeds on a buffer made of
digits and dots: Rust's float grammar (`Digits`, `Digits . [Digits]`,
`. Digits`) accepts such a buffer exactly when it has at most one
dot and at least one digit. -/
def validFloat (buffer : List Char) : Bool :=
  decide (buffer.count '.' ≤ 1) && buffer.any Char.isDigit

/-- The numeric tail of `Lexer::parse_token`: `buffer.parse()?`,
yielding a literal token or the `ParseFloatError` message. -/
noncomputable def parseNumber (buffer rest : List Char) :
    Except String (Token × List Char) :=
  if validFloat buffer then .ok (.literal (decimalValue buffer), rest)
  else .error "invalid float literal"

/-- The single-character tail of `Lexer::parse_token`. -/
def tokenFromChar (c : Char) (rest : List Char) :
    Except String (Token × List Char) :=
  if c = '(' then .ok (.leftBracket, rest)
  else if c = ')' then .ok (.rightBracket, rest)
  else if c = '+' then .ok (.operator .add, rest)
  else if c = '-' then .ok (.operator .sub, rest)
  else if c = '*' then .ok (.operator .mul, rest)
  else if c = '/' then .ok (.operator .div, rest)
  else if c = '^' then .ok (.operator .pow, rest)
  else .error ("Unknown token (" ++ String.mk [c] ++ ")")

mutual

/-- `Lexer::parse_token` (src/lexer.rs): the character stream is the
remaining `List Char`, with `'\x00'` as the end-of-stream sentinel
of `CharStream::peek`.  Fuel makes the `log`/`root` recursion
structural. -/
noncomputable def parseToken : ℕ → List Char → Except String (Token × List Char)
  | 0, _ => .error "fuel"
  | fuel+1, s =>
    let c := s.headD '\x00'
    if isIdentChar c then
      let buffer := s.takeWhile isIdentChar
      let rest := s.dropWhile isIdentChar
      let name := String.mk (buffer.map Char.toLower)
      if name = "abs" then .ok (.function .abs, rest)
      else if name = "sqrt" then .ok (.function .sqrt, rest)
      else if name = "log" then
        match parseFuncArgument fuel rest with
        | .ok (base, rest2) => .ok (.function (.log base), rest2)
        | .error e => .error e
      else if name = "sin" then .ok (.function .sin, rest)
      else if name = "cos" then .ok (.function .cos, rest)
      else if name = "tg" ∨ name = "tan" then .ok (.function .tg, rest)
      else if name = "ctg" ∨ name = "cotan" then .ok (.function .ctg, rest)
      else if name = "asin" ∨ name = "arcsin" then .ok (.function .asin, rest)
      else if name = "acos" ∨ name = "arccos" then .ok (.function .acos, rest)
      else if name = "atan" ∨ name = "arctan" then .ok (.function .atan, rest)
      else if name = "exp" then .ok (.function .exp, rest)
      else if name = "root" then
        match parseFuncArgument fuel rest with
        | .ok (base, rest2) => .ok (.function (.root base), rest2)
        | .error e => .error e
      else if name = "pi" then .ok (.literal Real.pi, rest)
      else if name = "e" then .ok (.literal (Real.exp 1), rest)
      else if name = "phi" then .ok (.literal ((1 + Real.sqrt 5) / 2), rest)
      else .error "Unknown identifier"
    else if isDigitChar c then
      let buffer := s.takeWhile isDigitChar
      let rest := s.dropWhile isDigitChar
      if buffer.length = 0 then
        match buffer.head? with
        | none => .error "panicked at Option::unwrap on a None value"
        | some ch =>
          if ch = '.' then .error "Invalid numeric literal"
          else parseNumber buffer rest
      else parseNumber buffer rest
    else
      tokenFromChar c s.tail
termination_by structural fuel _ => fuel

/-- `Lexer::parse_func_argument` (src/lexer.rs): tokenize the next
token and require it to be a literal; anything else — including a
lexing error — becomes the single argument error.  (The `0` case is
the fuel artifact; the source performs a plain call.) -/
noncomputable def parseFuncArgument : ℕ → List Char → Except String (ℝ × List Char)
  | 0, _ => .error "fuel"
  | fuel+1, s =>
    match parseToken fuel s with
    | .ok (.literal base, rest) => .ok (base, rest)
    | _ => .error "Unable to parse function argument"
termination_by structural fuel _ => fuel

end

/-- The token-collecting loop of `Lexer::new` (src/lexer.rs): skip
whitespace, stop at the `'\x00'` sentinel, otherwise parse a token
and continue. -/
noncomputable def tokenizeAux : ℕ → List Char → Except String (List Token)
  | 0, _ => .error "fuel"
  | fuel+1, s =>
    let c := s.headD '\x00'
    if c = '\x00' then .ok []
    else if c.isWhitespace then tokenizeAux fuel s.tail
    else
      match parseToken (fuel+1) s with
      | .ok (t, rest) =>
        match tokenizeAux fuel rest with
        | .ok ts => .ok (t :: ts)
        | .error e => .error e
      | .error e => .error e

/-- The parser-facing token cursor (`struct Lexer`, src/lexer.rs):
the collected tokens plus the current index. -/
structure Lexer where
  tokens : List Token
  index : ℕ

/-- `Lexer::peek` (src/lexer.rs): the token at the cursor, or `End`
once the sequence is exhausted. -/
def Lexer.peek (l : Lexer) : Token := l.tokens.getD l.index .End

/-- The cursor after `Lexer::next` (src/lexer.rs): the index advances
unconditionally. -/
def Lexer.advance (l : Lexer) : Lexer := ⟨l.tokens, l.index + 1⟩

/-- `tokenize` (src/lexer.rs): run the lexing loop over the whole
input and start the cursor at index 0.  The initial fuel
`length + 1` covers the loop, which consumes at least one character
per iteration. -/
noncomputable def tokenize (s : String) : Except String Lexer :=
  match tokenizeAux (s.data.length + 1) s.data with
  | .ok ts => .ok ⟨ts, 0⟩
  | .error e => .error e

/-- AST nodes (`enum Node`, src/parser.rs). -/
inductive Node
  | immediate (v : ℝ)
  | binOp (op : Op) (left right : Node)
  | func (f : Func) (operand : Node)

/-- `Op::evaluate` (src/eval.rs): evaluation rule of each binary
operator; division checks its divisor against exactly `0.0`, and
`powf` is the real power function. -/
noncomputable def Op.evaluate : Op → ℝ → ℝ → Except String ℝ
  | .add, left, right => .ok (left + right)
  | .sub, left, right => .ok (left - right)
  | .mul, left, right => .ok (left * right)
  | .div, left, right =>
    if right = 0 then .error "Invalid operation: division by zero"
    else .ok (left / right)
  | .pow, left, right => .ok (Real.rpow left right)

/-- `Func::evaluate` (src/eval.rs).  The three `log` branches of the
source differ only in which library routine they call for accuracy;
all compute the base-`base` logarithm, here `Real.logb`. -/
noncomputable def Func.evaluate : Func → ℝ → Except String ℝ
  | .abs, arg => .ok |arg|
  | .sqrt, arg =>
    if arg < 0 then .error "Invalid operation: square root of negative number"
    else .ok (Real.sqrt arg)
  | .log base, arg =>
    if base = 2 then .ok (Real.logb 2 arg)
    else if base = 10 then .ok (Real.logb 10 arg)
    else .ok (Real.logb base arg)
  | .cos, arg => .ok (Real.cos arg)
  | .sin, arg => .ok (Real.sin arg)
  | .tg, arg => .ok (Real.tan arg)
  | .ctg, arg => Op.div.evaluate 1 (Real.tan arg)
  | .asin, arg =>
    if arg < -1 ∨ 1 < arg then .error "Invalid operation: arcsine out of range"
    else .ok (Real.arcsin arg)
  | .acos, arg =>
    if arg < -1 ∨ 1 < arg then .error "Invalid operation: arccosine out of range"
    else .ok (Real.arccos arg)
  | .atan, arg => .ok (Real.arctan arg)
  | .exp, arg => .ok (Real.exp arg)
  | .root base, arg =>
    match Op.div.evaluate 1 base with
    | .ok e => .ok (Real.rpow arg e)
    | .error er => .error er

/-- `Node::evaluate` (src/eval.rs): depth-first reduction, left child
before right child, errors short-circuiting. -/
noncomputable def Node.evaluate : Node → Except String ℝ
  | .immediate v => .ok v
  | .binOp op left right =>
    match left.evaluate with
    | .error e => .error e
    | .ok a =>
      match right.evaluate with
      | .error e => .error e
      | .ok b => op.evaluate a b
  | .func f operand =>
    match operand.evaluate with
    | .error e => .error e
    | .ok v => f.evaluate v

/-- `Lexer::peek` as seen by the parser: the token at cursor index
`i` of the token list `ts`, or `End` once the list is exhausted. -/
def peekTok (ts : List Token) (i : ℕ) : Token := ts.getD i .End

mutual

/-- `parse_primary` (src/parser.rs).  The parser mutates only the
cursor index of `struct Lexer`, never its token list, so the
embedding fixes the tokens `ts` as a parameter and threads the
index: `lexer.next()` reads `peekTok ts i` and continues at `i + 1`.
The `bracket` guards on the unary-minus and literal arms mirror the
`if !bracket` match guards of the source. -/
noncomputable def parsePrimary (ts : List Token) : ℕ → ℕ → Bool → Except String (Node × ℕ)
  | 0, _, _ => .error "fuel"
  | fuel+1, i, bracket =>
    match peekTok ts i with
    | .operator .sub =>
      if bracket then .error "Unexpected token"
      else
        match parsePrimary ts fuel (i+1) false with
        | .ok (value, j) =>
          match value.evaluate with
          | .ok v => .ok (.immediate (-v), j)
          | .error e => .error e
        | .error e => .error e
    | .literal v =>
      if bracket then .error "Unexpected token"
      else .ok (.immediate v, i+1)
    | .leftBracket =>
      match parseExpression ts fuel (i+1) with
      | .ok (value, j) =>
        match peekTok ts j with
        | .rightBracket => .ok (value, j+1)
        | _ => .error "Parenthesis don't match"
      | .error e => .error e
    | _ => .error "Unexpected token"
termination_by structural fuel _ _ => fuel

/-- `parse_func` (src/parser.rs): a function token takes its argument
from `parse_primary` in bracket-restricted mode; otherwise fall back
to an unrestricted primary. -/
noncomputable def parseFunc (ts : List Token) : ℕ → ℕ → Except String (Node × ℕ)
  | 0, _ => .error "fuel"
  | fuel+1, i =>
    match peekTok ts i with
    | .function f =>
      match parsePrimary ts fuel (i+1) true with
      | .ok (arg, j) => .ok (.func f arg, j)
      | .error e => .error e
    | _ => parsePrimary ts fuel i false
termination_by structural fuel _ => fuel

/-- The left-folding loop of `parse_power` (src/parser.rs). -/
noncomputable def parsePowerLoop (ts : List Token) : ℕ → Node → ℕ → Except String (Node × ℕ)
  | 0, _, _ => .error "fuel"
  | fuel+1, left, i =>
    match peekTok ts i with
    | .operator .pow =>
      match parseFunc ts fuel (i+1) with
      | .ok (right, j) => parsePowerLoop ts fuel (.binOp .pow left right) j
      | .error e => .error e
    | _ => .ok (left, i)
termination_by structural fuel _ _ => fuel

/-- `parse_power` (src/parser.rs): initial operand, then the loop. -/
noncomputable def parsePower (ts : List Token) : ℕ → ℕ → Except String (Node × ℕ)
  | 0, _ => .error "fuel"
  | fuel+1, i =>
    match parseFunc ts fuel i with
    | .ok (left, j) => parsePowerLoop ts fuel left j
    | .error e => .error e
termination_by structural fuel _ => fuel

/-- The left-folding loop of `parse_multiplicative` (src/parser.rs);
an operator failing the `Mul`/`Div` guard falls through to the
wildcard arm, which breaks out with the node built so far. -/
noncomputable def parseMultiplicativeLoop (ts : List Token) : ℕ → Node → ℕ → Except String (Node × ℕ)
  | 0, _, _ => .error "fuel"
  | fuel+1, left, i =>
    match peekTok ts i with
    | .operator op =>
      if op = .mul ∨ op = .div then
        match parsePower ts fuel (i+1) with
        | .ok (right, j) => parseMultiplicativeLoop ts fuel (.binOp op left right) j
        | .error e => .error e
      else .ok (left, i)
    | _ => .ok (left, i)
termination_by structural fuel _ _ => fuel

/-- `parse_multiplicative` (src/parser.rs). -/
noncomputable def parseMultiplicative (ts : List Token) : ℕ → ℕ → Except String (Node × ℕ)
  | 0, _ => .error "fuel"
  | fuel+1, i =>
    match parsePower ts fuel i with
    | .ok (left, j) => parseMultiplicativeLoop ts fuel left j
    | .error e => .error e
termination_by structural fuel _ => fuel

/-- The loop of `parse_additive` (src/parser.rs): `Add`/`Sub`
continue the fold, `End` alone breaks out successfully, and every
other token — a failed guard included — is an unexpected-token
error. -/
noncomputable def parseAdditiveLoop (ts : List Token) : ℕ → Node → ℕ → Except String (Node × ℕ)
  | 0, _, _ => .error "fuel"
  | fuel+1, left, i =>
    match peekTok ts i with
    | .operator op =>
      if op = .add ∨ op = .sub then
        match parseMultiplicative ts fuel (i+1) with
        | .ok (right, j) => parseAdditiveLoop ts fuel (.binOp op left right) j
        | .error e => .error e
      else .error "Unexpected token"
    | .End => .ok (left, i)
    | _ => .error "Unexpected token"
termination_by structural fuel _ _ => fuel

/-- `parse_additive` (src/parser.rs). -/
noncomputable def parseAdditive (ts : List Token) : ℕ → ℕ → Except String (Node × ℕ)
  | 0, _ => .error "fuel"
  | fuel+1, i =>
    match parseMultiplicative ts fuel i with
    | .ok (left, j) => parseAdditiveLoop ts fuel left j
    | .error e => .error e
termination_by structural fuel _ => fuel

/-- `parse_expression` (src/parser.rs). -/
noncomputable def parseExpression (ts : List Token) : ℕ → ℕ → Except String (Node × ℕ)
  | 0, _ => .error "fuel"
  | fuel+1, i => parseAdditive ts fuel i
termination_by structural fuel _ => fuel

end

/-- The full pipeline of the shell (src/main.rs): tokenize, parse,
evaluate.  The parsing fuel `10 * (tokens + 2)` amply covers the
recursive descent, which consumes a token at least every six
nested calls. -/
noncomputable def run (s : String) : Except String ℝ :=
  match tokenize s with
  | .error e => .error e
  | .ok lx =>
    match parseExpression lx.tokens (10 * (lx.tokens.length + 2)) 0 with
    | .error e => .error e
    | .ok (node, _) => node.evaluate

/-! ### Helper lemmas -/

lemma decimalValue_zero : decimalValue ['0'] = 0 := by
  simp [decimalValue, digitsToNat, List.takeWhile, List.dropWhile]

lemma decimalValue_one : decimalValue ['1'] = 1 := by
  simp [decimalValue, digitsToNat, List.takeWhile, List.dropWhile]

lemma decimalValue_two : decimalValue ['2'] = 2 := by
  simp [decimalValue, digitsToNat, List.takeWhile, List.dropWhile]

lemma decimalValue_three : decimalValue ['3'] = 3 := by
  simp [decimalValue, digitsToNat, List.takeWhile, List.dropWhile]

lemma decimalValue_four : decimalValue ['4'] = 4 := by
  simp [decimalValue, digitsToNat, List.takeWhile, List.dropWhile]

lemma decimalValue_five : decimalValue ['5'] = 5 := by
  simp [decimalValue, digitsToNat, List.takeWhile, List.dropWhile]

lemma decimalValue_ten : decimalValue ['1', '0'] = 10 := by
  simp [decimalValue, digitsToNat, List.takeWhile, List.dropWhile]

lemma takeWhile_eq_nil_of_head (p : Char → Bool) (s : List Char)
    (h : ¬ p (s.headD '\x00') = true) : s.takeWhile p = [] := by
  cases s with
  | nil => simp
  | cons a as => simp_all [List.takeWhile_cons]

lemma dropWhile_eq_self_of_head (p : Char → Bool) (s : List Char)
    (h : ¬ p (s.headD '\x00') = true) : s.dropWhile p = s := by
  cases s with
  | nil => simp
  | cons a as => simp_all [List.dropWhile_cons]

/-! ### Claim theorems -/

/-- C1: the spec claims `"sqrt(abs(-2))"`, `"cos(pi)"` and
`"sin(log2(10))"` evaluate successfully, and that a parenthesized
expression is accepted by the primary rule.  The code disagrees:
`parse_additive` accepts only `End` after its folded expression, so
the `RightBracket` closing any parenthesized group is an unexpected
token and every one of these inputs fails at parse time — even
though a bare literal does parse as an expression. -/
theorem paren_pipeline_fails_to_parse :
    run "sqrt(abs(-2))" = .error "Unexpected token" ∧
    run "cos(pi)" = .error "Unexpected token" ∧
    run "sin(log2(10))" = .error "Unexpected token" ∧
    (∀ v : ℝ, parseExpression [.literal v] 40 0 = .ok (.immediate v, 1)) ∧
    (∀ v : ℝ, parseExpression [.leftBracket, .literal v, .rightBracket] 40 0 =
      .error "Unexpected token") :=
  ⟨rfl, rfl, rfl, fun _ => rfl, fun _ => rfl⟩

/-- C2 counterexample: the claim says a `Function` token immediately
followed by a `Literal` token parses to a `FunctionCall` with that
literal as operand; in fact `parse_primary`'s literal arm carries the
same `if !bracket` guard as the unary-minus arm, so in
function-argument position a bare literal is rejected. -/
theorem parseFunc_literal_arg_rejected_cex :
    parseFunc [.function .abs, .literal 7] 10 0 = .error "Unexpected token" := rfl

/-- C2 (amended): when parsing a function's argument the parser
rejects a leading unary-minus token — so `"abs-2"` fails to parse —
and it equally rejects a bare literal token: the argument must be
parenthesized. -/
theorem function_argument_rejects_minus_and_literal :
    run "abs-2" = .error "Unexpected token" ∧
    (∀ (ts : List Token) (fuel i : ℕ) (f : Func) (v : ℝ),
      peekTok ts i = .function f → peekTok ts (i+1) = .literal v →
      parseFunc ts (fuel+2) i = .error "Unexpected token") ∧
    (∀ (ts : List Token) (fuel i : ℕ) (f : Func),
      peekTok ts i = .function f → peekTok ts (i+1) = .operator .sub →
      parseFunc ts (fuel+2) i = .error "Unexpected token") := by
  refine ⟨rfl, ?_, ?_⟩
  · intro ts fuel i f v hf hv
    simp [parseFunc, hf, parsePrimary, hv]
  · intro ts fuel i f hf hv
    simp [parseFunc, hf, parsePrimary, hv]

/-- Witness for the amended C2 theorem at a concrete token list. -/
theorem function_argument_rejects_minus_and_literal_w :
    parseFunc [.function .abs, .literal 7] 2 0 = .error "Unexpected token" :=
  function_argument_rejects_minus_and_literal.2.1
    [.function .abs, .literal 7] 0 0 .abs 7 rfl rfl

/-- C9: the power operator folds to the left: for all operand values
`a`, `b`, `c`, the token sequence `a ^ b ^ c` parses to the tree
`(a ^ b) ^ c`. -/
theorem power_left_associative :
    ∀ a b c : ℝ,
      parseExpression [.literal a, .operator .pow, .literal b, .operator .pow, .literal c] 40 0 =
        .ok (.binOp .pow (.binOp .pow (.immediate a) (.immediate b)) (.immediate c), 5) :=
  fun _ _ _ => rfl

/-- C6: a unary minus in non-bracket primary position recursively
parses its operand, evaluates it at parse time, and yields an
`Immediate` node with the negated value — never a `BinOp` or a
negation node — and an evaluation error in the operand surfaces as
a parse-time failure. -/
theorem unary_minus_parses_to_immediate :
    ∀ (ts : List Token) (fuel i : ℕ), peekTok ts i = .operator .sub →
      (∀ n j, parsePrimary ts (fuel+1) i false = .ok (n, j) → ∃ v, n = .immediate v) ∧
      (∀ m j v, parsePrimary ts fuel (i+1) false = .ok (m, j) → m.evaluate = .ok v →
        parsePrimary ts (fuel+1) i false = .ok (.immediate (-v), j)) ∧
      (∀ m j e, parsePrimary ts fuel (i+1) false = .ok (m, j) → m.evaluate = .error e →
        parsePrimary ts (fuel+1) i false = .error e) := by
  intro ts fuel i h
  refine ⟨?_, ?_, ?_⟩
  · intro n j hok
    rw [show parsePrimary ts (fuel+1) i false =
        (match parsePrimary ts fuel (i+1) false with
         | .ok (value, j) =>
           match value.evaluate with
           | .ok v => .ok (.immediate (-v), j)
           | .error e => .error e
         | .error e => .error e) from by simp [parsePrimary, h]] at hok
    cases hm : parsePrimary ts fuel (i+1) false with
    | ok p =>
      obtain ⟨value, j1⟩ := p
      cases he : value.evaluate with
      | ok v =>
        simp only [hm, he] at hok
        obtain ⟨h1, h2⟩ := Prod.mk.injEq .. ▸ (Except.ok.inj hok)
        exact ⟨-v, h1.symm⟩
      | error e => simp [hm, he] at hok
    | error e => simp [hm] at hok
  · intro m j v hm he
    simp [parsePrimary, h, hm, he]
  · intro m j e hm he
    simp [parsePrimary, h, hm, he]

/-- Witness for the unary-minus theorem on the token list of `-7`. -/
theorem unary_minus_parses_to_immediate_w :
    parsePrimary [.operator .sub, .literal 7] 6 0 false = .ok (.immediate (-7), 2) :=
  (unary_minus_parses_to_immediate [.operator .sub, .literal 7] 5 0 rfl).2.1
    (.immediate 7) 2 7 rfl rfl

/-- C3: the spec claims `"sqrt(-1)"` fails with the negative-sqrt
error and `"asin(2)"` with the out-of-range error.  At the
evaluator level the domain checks are exactly as claimed (`Sqrt`
errs iff its operand is `< 0`, `Asin`/`Acos` err iff the operand is
outside `[-1, 1]`), but the pipeline never reaches the evaluator:
the `parse_additive` bug makes both inputs fail at parse time with
an unexpected-token error. -/
theorem domain_error_examples_fail_at_parse :
    run "sqrt(-1)" = .error "Unexpected token" ∧
    run "asin(2)" = .error "Unexpected token" ∧
    (∀ x : ℝ, Func.sqrt.evaluate x =
        .error "Invalid operation: square root of negative number" ↔ x < 0) ∧
    (∀ x : ℝ, ¬ x < 0 → Func.sqrt.evaluate x = .ok (Real.sqrt x)) ∧
    (∀ x : ℝ, Func.asin.evaluate x =
        .error "Invalid operation: arcsine out of range" ↔ (x < -1 ∨ 1 < x)) ∧
    (∀ x : ℝ, Func.acos.evaluate x =
        .error "Invalid operation: arccosine out of range" ↔ (x < -1 ∨ 1 < x)) ∧
    (∀ x : ℝ, ¬(x < -1 ∨ 1 < x) →
      Func.asin.evaluate x = .ok (Real.arcsin x) ∧
      Func.acos.evaluate x = .ok (Real.arccos x)) := by
  refine ⟨rfl, rfl, ?_, ?_, ?_, ?_, ?_⟩
  · intro x; simp only [Func.evaluate]; split_ifs with hx <;> simp [hx]
  · intro x hx; simp [Func.evaluate, hx]
  · intro x; simp only [Func.evaluate]; split_ifs with hx <;> simp [hx]
  · intro x; simp only [Func.evaluate]; split_ifs with hx <;> simp [hx]
  · intro x hx; simp [Func.evaluate, hx]

/-- Witness for the evaluator-level conjuncts of the C3 theorem. -/
theorem domain_error_examples_fail_at_parse_w :
    Func.sqrt.evaluate (-1) =
      .error "Invalid operation: square root of negative number" ∧
    Func.asin.evaluate 2 = .error "Invalid operation: arcsine out of range" :=
  ⟨(domain_error_examples_fail_at_parse.2.2.1 (-1)).mpr (by norm_num),
   (domain_error_examples_fail_at_parse.2.2.2.2.1 2).mpr (by norm_num)⟩

/-- C4: `Op::Div` fails with the division-by-zero error exactly when
the divisor is `0.0` and otherwise divides; a division node whose
operands evaluate successfully errs iff the divisor's value is zero;
and the pipeline on `"1/0"` fails with the division-by-zero error
rather than producing an infinity. -/
theorem division_by_zero_exact :
    (∀ a b : ℝ, Op.div.evaluate a b =
        .error "Invalid operation: division by zero" ↔ b = 0) ∧
    (∀ a b : ℝ, b ≠ 0 → Op.div.evaluate a b = .ok (a / b)) ∧
    (∀ (l r : Node) (a b : ℝ), l.evaluate = .ok a → r.evaluate = .ok b →
      ((Node.binOp .div l r).evaluate =
          .error "Invalid operation: division by zero" ↔ b = 0) ∧
      (b ≠ 0 → (Node.binOp .div l r).evaluate = .ok (a / b))) ∧
    run "1/0" = .error "Invalid operation: division by zero" := by
  have hop : ∀ a b : ℝ, Op.div.evaluate a b =
      .error "Invalid operation: division by zero" ↔ b = 0 := by
    intro a b; simp only [Op.evaluate]; split_ifs with hb <;> simp [hb]
  have hop2 : ∀ a b : ℝ, b ≠ 0 → Op.div.evaluate a b = .ok (a / b) := by
    intro a b hb; simp [Op.evaluate, hb]
  refine ⟨hop, hop2, ?_, ?_⟩
  · intro l r a b hl hr
    constructor
    · rw [show (Node.binOp .div l r).evaluate = Op.div.evaluate a b from by
        simp [Node.evaluate, hl, hr]]
      exact hop a b
    · intro hb
      rw [show (Node.binOp .div l r).evaluate = Op.div.evaluate a b from by
        simp [Node.evaluate, hl, hr]]
      exact hop2 a b hb
  · have h : run "1/0" = Op.div.evaluate (decimalValue ['1']) (decimalValue ['0']) := rfl
    rw [h, decimalValue_zero]
    exact (hop _ 0).mpr rfl

/-- Witness for the C4 theorem at the division node `1 / 0`. -/
theorem division_by_zero_exact_w :
    (Node.binOp .div (.immediate 1) (.immediate 0)).evaluate =
      .error "Invalid operation: division by zero" :=
  ((division_by_zero_exact.2.2.1 (.immediate 1) (.immediate 0) 1 0 rfl rfl).1).mpr rfl

/-- C8: the paren-free arithmetic examples of the spec evaluate as
claimed, confirming left-associative additive operators and the
precedence of `/` over `-` and of `^` over `*`. -/
theorem evaluates_test_operators :
    run "1 + 2 - 4" = .ok (-1) ∧
    run "5 - 1 / 2" = .ok 4.5 ∧
    run "2 * 3 ^ 2" = .ok 18 := by
  refine ⟨?_, ?_, ?_⟩
  · have h : run "1 + 2 - 4" =
        .ok (decimalValue ['1'] + decimalValue ['2'] - decimalValue ['4']) := rfl
    rw [h, decimalValue_one, decimalValue_two, decimalValue_four]
    norm_num
  · have h : run "5 - 1 / 2" =
        (Node.binOp .sub (.immediate (decimalValue ['5']))
          (.binOp .div (.immediate (decimalValue ['1']))
            (.immediate (decimalValue ['2'])))).evaluate := rfl
    rw [h, decimalValue_one, decimalValue_two, decimalValue_five]
    rw [show (Node.binOp .sub (.immediate (5:ℝ))
          (.binOp .div (.immediate 1) (.immediate 2))).evaluate =
        Op.sub.evaluate 5 ((1:ℝ) / 2) from by
      simp [Node.evaluate, Op.evaluate]]
    simp only [Op.evaluate]
    norm_num
  · have h : run "2 * 3 ^ 2" =
        .ok (decimalValue ['2'] * Real.rpow (decimalValue ['3']) (decimalValue ['2'])) := rfl
    rw [h, decimalValue_two, decimalValue_three]
    rw [show Real.rpow (3:ℝ) 2 = ((3:ℝ) ^ (((2:ℕ)):ℝ) : ℝ) from by norm_num,
        Real.rpow_natCast]
    norm_num

lemma parseAdditiveLoop_ok_peek (ts : List Token) :
    ∀ (fuel : ℕ) (left : Node) (i : ℕ) (n : Node) (j : ℕ),
      parseAdditiveLoop ts fuel left i = .ok (n, j) → peekTok ts j = .End := by
  intro fuel
  induction fuel with
  | zero => intro left i n j h; simp [parseAdditiveLoop] at h
  | succ fuel ih =>
    intro left i n j h
    simp only [parseAdditiveLoop] at h
    cases hp : peekTok ts i with
    | operator op =>
      simp only [hp] at h
      split at h
      · split at h
        · exact ih _ _ _ _ h
        · simp at h
      · simp at h
    | End =>
      simp only [hp] at h
      obtain ⟨h1, h2⟩ := Prod.mk.injEq .. ▸ Except.ok.inj h
      rw [← h2]; exact hp
    | literal v => simp [hp] at h
    | function f => simp [hp] at h
    | leftBracket => simp [hp] at h
    | rightBracket => simp [hp] at h

lemma parseAdditive_ok_peek (ts : List Token) (fuel i : ℕ) (n : Node) (j : ℕ)
    (h : parseAdditive ts fuel i = .ok (n, j)) : peekTok ts j = .End := by
  cases fuel with
  | zero => simp [parseAdditive] at h
  | succ fuel =>
    simp only [parseAdditive] at h
    split at h
    · exact parseAdditiveLoop_ok_peek ts fuel _ _ _ _ h
    · simp at h

lemma parseExpression_ok_peek (ts : List Token) (fuel i : ℕ) (n : Node) (j : ℕ)
    (h : parseExpression ts fuel i = .ok (n, j)) : peekTok ts j = .End := by
  cases fuel with
  | zero => simp [parseExpression] at h
  | succ fuel => exact parseAdditive_ok_peek ts fuel i n j h

lemma parseNumber_ok_ne_End (buffer rest : List Char) (t : Token) (r : List Char)
    (h : parseNumber buffer rest = .ok (t, r)) : t ≠ .End := by
  unfold parseNumber at h
  split_ifs at h <;>
    first
      | (simp only [Except.ok.injEq, Prod.mk.injEq] at h
         rcases h with ⟨rfl, h2⟩
         simp)
      | simp at h

lemma tokenFromChar_ok_ne_End (c : Char) (rest : List Char) (t : Token) (r : List Char)
    (h : tokenFromChar c rest = .ok (t, r)) : t ≠ .End := by
  unfold tokenFromChar at h
  split_ifs at h <;>
    first
      | (simp only [Except.ok.injEq, Prod.mk.injEq] at h
         rcases h with ⟨rfl, h2⟩
         simp)
      | simp at h

lemma parseToken_ok_ne_End (fuel : ℕ) (s : List Char) (t : Token) (rest : List Char)
    (h : parseToken fuel s = .ok (t, rest)) : t ≠ .End := by
  cases fuel with
  | zero => simp [parseToken] at h
  | succ fuel =>
    simp only [parseToken] at h
    by_cases hid : isIdentChar (s.headD '\x00') = true
    · rw [if_pos hid] at h
      revert h
      generalize String.mk (List.map Char.toLower (List.takeWhile isIdentChar s)) = nm
      generalize List.dropWhile isIdentChar s = r0
      intro h
      cases hpfa : parseFuncArgument fuel r0 with
      | ok p =>
        obtain ⟨base, rest2⟩ := p
        simp only [hpfa] at h
        by_cases hc0 : nm = "abs"
        · rw [if_pos hc0] at h
          first
            | (simp only [Except.ok.injEq, Prod.mk.injEq] at h
               rcases h with ⟨rfl, h2⟩
               simp)
            | exact absurd h (by simp)
        · rw [if_neg hc0] at h
          by_cases hc1 : nm = "sqrt"
          · rw [if_pos hc1] at h
            first
              | (simp only [Except.ok.injEq, Prod.mk.injEq] at h
                 rcases h with ⟨rfl, h2⟩
                 simp)
              | exact absurd h (by simp)
          · rw [if_neg hc1] at h
            by_cases hc2 : nm = "log"
            · rw [if_pos hc2] at h
              first
                | (simp only [Except.ok.injEq, Prod.mk.injEq] at h
                   rcases h with ⟨rfl, h2⟩
                   simp)
                | exact absurd h (by simp)
            · rw [if_neg hc2] at h
              by_cases hc3 : nm = "sin"
              · rw [if_pos hc3] at h
                first
                  | (simp only [Except.ok.injEq, Prod.mk.injEq] at h
                     rcases h with ⟨rfl, h2⟩
                     simp)
                  | exact absurd h (by simp)
              · rw [if_neg hc3] at h
                by_cases hc4 : nm = "cos"
                · rw [if_pos hc4] at h
                  first
                    | (simp only [Except.ok.injEq, Prod.mk.injEq] at h
                       rcases h with ⟨rfl, h2⟩
                       simp)
                    | exact absurd h (by simp)
                · rw [if_neg hc4] at h
                  by_cases hc5 : nm = "tg" ∨ nm = "tan"
                  · rw [if_pos hc5] at h
                    first
                      | (simp only [Except.ok.injEq, Prod.mk.injEq] at h
                         rcases h with ⟨rfl, h2⟩
                         simp)
                      | exact absurd h (by simp)
                  · rw [if_neg hc5] at h
                    by_cases hc6 : nm = "ctg" ∨ nm = "cotan"
                    · rw [if_pos hc6] at h
                      first
                        | (simp only [Except.ok.injEq, Prod.mk.injEq] at h
                           rcases h with ⟨rfl, h2⟩
                           simp)
                        | exact absurd h (by simp)
                    · rw [if_neg hc6] at h
                      by_cases hc7 : nm = "asin" ∨ nm = "arcsin"
                      · rw [if_pos hc7] at h
                        first
                          | (simp only [Except.ok.injEq, Prod.mk.injEq] at h
                             rcases h with ⟨rfl, h2⟩
                             simp)
                          | exact absurd h (by simp)
                      · rw [if_neg hc7] at h
                        by_cases hc8 : nm = "acos" ∨ nm = "arccos"
                        · rw [if_pos hc8] at h
                          first
                            | (simp only [Except.ok.injEq, Prod.mk.injEq] at h
                               rcases h with ⟨rfl, h2⟩
                               simp)
                            | exact absurd h (by simp)
                        · rw [if_neg hc8] at h
                          by_cases hc9 : nm = "atan" ∨ nm = "arctan"
                          · rw [if_pos hc9] at h
                            first
                              | (simp only [Except.ok.injEq, Prod.mk.injEq] at h
                                 rcases h with ⟨rfl, h2⟩
                                 simp)
                              | exact absurd h (by simp)
                          · rw [if_neg hc9] at h
                            by_cases hc10 : nm = "exp"
                            · rw [if_pos hc10] at h
                              first
                                | (simp only [Except.ok.injEq, Prod.mk.injEq] at h
                                   rcases h with ⟨rfl, h2⟩
                                   simp)
                                | exact absurd h (by simp)
                            · rw [if_neg hc10] at h
                              by_cases hc11 : nm = "root"
                              · rw [if_pos hc11] at h
                                first
                                  | (simp only [Except.ok.injEq, Prod.mk.injEq] at h
                                     rcases h with ⟨rfl, h2⟩
                                     simp)
                                  | exact absurd h (by simp)
                              · rw [if_neg hc11] at h
                                by_cases hc12 : nm = "pi"
                                · rw [if_pos hc12] at h
                                  first
                                    | (simp only [Except.ok.injEq, Prod.mk.injEq] at h
                                       rcases h with ⟨rfl, h2⟩
                                       simp)
                                    | exact absurd h (by simp)
                                · rw [if_neg hc12] at h
                                  by_cases hc13 : nm = "e"
                                  · rw [if_pos hc13] at h
                                    first
                                      | (simp only [Except.ok.injEq, Prod.mk.injEq] at h
                                         rcases h with ⟨rfl, h2⟩
                                         simp)
                                      | exact absurd h (by simp)
                                  · rw [if_neg hc13] at h
                                    by_cases hc14 : nm = "phi"
                                    · rw [if_pos hc14] at h
                                      first
                                        | (simp only [Except.ok.injEq, Prod.mk.injEq] at h
                                           rcases h with ⟨rfl, h2⟩
                                           simp)
                                        | exact absurd h (by simp)
                                    · rw [if_neg hc14] at h
                                      exact absurd h (by simp)
      | error e =>
        simp only [hpfa] at h
        by_cases hc0 : nm = "abs"
        · rw [if_pos hc0] at h
          first
            | (simp only [Except.ok.injEq, Prod.mk.injEq] at h
               rcases h with ⟨rfl, h2⟩
               simp)
            | exact absurd h (by simp)
        · rw [if_neg hc0] at h
          by_cases hc1 : nm = "sqrt"
          · rw [if_pos hc1] at h
            first
              | (simp only [Except.ok.injEq, Prod.mk.injEq] at h
                 rcases h with ⟨rfl, h2⟩
                 simp)
              | exact absurd h (by simp)
          · rw [if_neg hc1] at h
            by_cases hc2 : nm = "log"
            · rw [if_pos hc2] at h
              first
                | (simp only [Except.ok.injEq, Prod.mk.injEq] at h
                   rcases h with ⟨rfl, h2⟩
                   simp)
                | exact absurd h (by simp)
            · rw [if_neg hc2] at h
              by_cases hc3 : nm = "sin"
              · rw [if_pos hc3] at h
                first
                  | (simp only [Except.ok.injEq, Prod.mk.injEq] at h
                     rcases h with ⟨rfl, h2⟩
                     simp)
                  | exact absurd h (by simp)
              · rw [if_neg hc3] at h
                by_cases hc4 : nm = "cos"
                · rw [if_pos hc4] at h
                  first
                    | (simp only [Except.ok.injEq, Prod.mk.injEq] at h
                       rcases h with ⟨rfl, h2⟩
                       simp)
                    | exact absurd h (by simp)
                · rw [if_neg hc4] at h
                  by_cases hc5 : nm = "tg" ∨ nm = "tan"
                  · rw [if_pos hc5] at h
                    first
                      | (simp only [Except.ok.injEq, Prod.mk.injEq] at h
                         rcases h with ⟨rfl, h2⟩
                         simp)
                      | exact absurd h (by simp)
                  · rw [if_neg hc5] at h
                    by_cases hc6 : nm = "ctg" ∨ nm = "cotan"
                    · rw [if_pos hc6] at h
                      first
                        | (simp only [Except.ok.injEq, Prod.mk.injEq] at h
                           rcases h with ⟨rfl, h2⟩
                           simp)
                        | exact absurd h (by simp)
                    · rw [if_neg hc6] at h
                      by_cases hc7 : nm = "asin" ∨ nm = "arcsin"
                      · rw [if_pos hc7] at h
                        first
                          | (simp only [Except.ok.injEq, Prod.mk.injEq] at h
                             rcases h with ⟨rfl, h2⟩
                             simp)
                          | exact absurd h (by simp)
                      · rw [if_neg hc7] at h
                        by_cases hc8 : nm = "acos" ∨ nm = "arccos"
                        · rw [if_pos hc8] at h
                          first
                            | (simp only [Except.ok.injEq, Prod.mk.injEq] at h
                               rcases h with ⟨rfl, h2⟩
                               simp)
                            | exact absurd h (by simp)
                        · rw [if_neg hc8] at h
                          by_cases hc9 : nm = "atan" ∨ nm = "arctan"
                          · rw [if_pos hc9] at h
                            first
                              | (simp only [Except.ok.injEq, Prod.mk.injEq] at h
                                 rcases h with ⟨rfl, h2⟩
                                 simp)
                              | exact absurd h (by simp)
                          · rw [if_neg hc9] at h
                            by_cases hc10 : nm = "exp"
                            · rw [if_pos hc10] at h
                              first
                                | (simp only [Except.ok.injEq, Prod.mk.injEq] at h
                                   rcases h with ⟨rfl, h2⟩
                                   simp)
                                | exact absurd h (by simp)
                            · rw [if_neg hc10] at h
                              by_cases hc11 : nm = "root"
                              · rw [if_pos hc11] at h
                                first
                                  | (simp only [Except.ok.injEq, Prod.mk.injEq] at h
                                     rcases h with ⟨rfl, h2⟩
                                     simp)
                                  | exact absurd h (by simp)
                              · rw [if_neg hc11] at h
                                by_cases hc12 : nm = "pi"
                                · rw [if_pos hc12] at h
                                  first
                                    | (simp only [Except.ok.injEq, Prod.mk.injEq] at h
                                       rcases h with ⟨rfl, h2⟩
                                       simp)
                                    | exact absurd h (by simp)
                                · rw [if_neg hc12] at h
                                  by_cases hc13 : nm = "e"
                                  · rw [if_pos hc13] at h
                                    first
                                      | (simp only [Except.ok.injEq, Prod.mk.injEq] at h
                                         rcases h with ⟨rfl, h2⟩
                                         simp)
                                      | exact absurd h (by simp)
                                  · rw [if_neg hc13] at h
                                    by_cases hc14 : nm = "phi"
                                    · rw [if_pos hc14] at h
                                      first
                                        | (simp only [Except.ok.injEq, Prod.mk.injEq] at h
                                           rcases h with ⟨rfl, h2⟩
                                           simp)
                                        | exact absurd h (by simp)
                                    · rw [if_neg hc14] at h
                                      exact absurd h (by simp)
    · rw [if_neg hid] at h
      by_cases hdg : isDigitChar (s.headD '\x00') = true
      · rw [if_pos hdg] at h
        by_cases hlen : (List.takeWhile isDigitChar s).length = 0
        · rw [if_pos hlen] at h
          rcases hh : (List.takeWhile isDigitChar s).head? with _ | ch
          · simp only [hh] at h
            exact absurd h (by simp)
          · simp only [hh] at h
            by_cases hch : ch = '.'
            · rw [if_pos hch] at h; simp at h
            · rw [if_neg hch] at h; exact parseNumber_ok_ne_End _ _ _ _ h
        · rw [if_neg hlen] at h; exact parseNumber_ok_ne_End _ _ _ _ h
      · rw [if_neg hdg] at h
        exact tokenFromChar_ok_ne_End _ _ _ _ h

lemma tokenizeAux_no_End : ∀ (fuel : ℕ) (s : List Char) (ts : List Token),
    tokenizeAux fuel s = .ok ts → Token.End ∉ ts := by
  intro fuel
  induction fuel with
  | zero => intro s ts h; simp [tokenizeAux] at h
  | succ fuel ih =>
    intro s ts h
    simp only [tokenizeAux] at h
    split at h
    · obtain rfl : ([] : List Token) = ts := Except.ok.inj h
      simp
    · split at h
      · exact ih _ _ h
      · split at h
        · split at h
          · obtain rfl := Except.ok.inj h
            intro hmem
            rcases List.mem_cons.mp hmem with h1 | h2
            · exact parseToken_ok_ne_End _ _ _ _ (by assumption) h1.symm
            · exact ih _ _ (by assumption) h2
          · simp at h
        · simp at h

/-- C5: if the top-level parse succeeds then the cursor's next token
is `End` — so, since `tokenize` never emits an `End` token, every
token of a tokenized input has been consumed — and trailing garbage
such as the stray `)` in `"1 + 2)"` fails with the unexpected-token
error. -/
theorem parse_success_consumes_all :
    (∀ (ts : List Token) (fuel i : ℕ) (n : Node) (j : ℕ),
      parseExpression ts fuel i = .ok (n, j) → peekTok ts j = .End) ∧
    (∀ (s : String) (lx : Lexer) (fuel : ℕ) (n : Node) (j : ℕ),
      tokenize s = .ok lx → parseExpression lx.tokens fuel 0 = .ok (n, j) →
      lx.tokens.length ≤ j) ∧
    run "1 + 2)" = .error "Unexpected token" := by
  refine ⟨parseExpression_ok_peek, ?_, rfl⟩
  intro s lx fuel n j htok hparse
  by_contra hlt
  push_neg at hlt
  have hEnd : peekTok lx.tokens j = .End :=
    parseExpression_ok_peek _ _ _ _ _ hparse
  have hnoEnd : Token.End ∉ lx.tokens := by
    unfold tokenize at htok
    cases htoks : tokenizeAux (s.data.length + 1) s.data with
    | ok ts0 =>
      rw [htoks] at htok
      cases htok
      exact tokenizeAux_no_End _ _ _ htoks
    | error e => rw [htoks] at htok; cases htok
  apply hnoEnd
  rw [← hEnd]
  unfold peekTok
  rw [List.getD_eq_getElem _ _ hlt]
  exact List.getElem_mem hlt

/-- Witness for the C5 theorem on the tokenization of `"1"`. -/
theorem parse_success_consumes_all_w :
    peekTok [Token.literal (decimalValue ['1'])] 1 = Token.End ∧
    (Lexer.mk [Token.literal (decimalValue ['1'])] 0).tokens.length ≤ 1 :=
  ⟨parse_success_consumes_all.1 [Token.literal (decimalValue ['1'])] 20 0
      (.immediate (decimalValue ['1'])) 1 rfl,
   parse_success_consumes_all.2.1 "1" (Lexer.mk [Token.literal (decimalValue ['1'])] 0) 20
      (.immediate (decimalValue ['1'])) 1 rfl rfl⟩

lemma parseNumber_error_ne (buffer rest : List Char) (msg : String)
    (hmsg : msg ≠ "invalid float literal") : parseNumber buffer rest ≠ .error msg := by
  unfold parseNumber
  split_ifs <;> intro h
  · exact absurd h (by simp)
  · exact hmsg (Except.error.inj h).symm

lemma tokenFromChar_error_ne (c : Char) (rest : List Char) (msg : String)
    (hlen : msg.length ≠ 17) : tokenFromChar c rest ≠ .error msg := by
  unfold tokenFromChar
  split_ifs <;> intro h
  all_goals
    first
      | (cases h
         exact hlen rfl)
      | cases h

lemma parseFuncArgument_error_shape (fuel : ℕ) (s : List Char) :
    (∃ v r, parseFuncArgument fuel s = .ok (v, r)) ∨
    parseFuncArgument fuel s = .error "fuel" ∨
    parseFuncArgument fuel s = .error "Unable to parse function argument" := by
  cases fuel with
  | zero => exact Or.inr (Or.inl rfl)
  | succ fuel =>
    simp only [parseFuncArgument]
    cases hpt : parseToken fuel s with
    | ok p =>
      obtain ⟨t, r⟩ := p
      cases t <;> simp [hpt]
    | error e => simp [hpt]

/-- Any error of `parseToken` is one of: the fuel artifact, the
unknown-identifier error, the swallowed function-argument error,
the float-parse error, or an unknown-token error (whose message has
length 17).  In particular the "Invalid numeric literal" guard and
the panic it hides are unreachable: in the numeric branch the buffer
always starts with the digit character that selected the branch. -/
lemma parseToken_error_ne (fuel : ℕ) (s : List Char) (msg : String)
    (h1 : msg ≠ "fuel") (h2 : msg ≠ "Unknown identifier")
    (h3 : msg ≠ "Unable to parse function argument")
    (h4 : msg ≠ "invalid float literal")
    (hlen : msg.length ≠ 17) : parseToken fuel s ≠ .error msg := by
  intro h
  cases fuel with
  | zero => exact h1 (Except.error.inj h).symm
  | succ fuel =>
    simp only [parseToken] at h
    by_cases hid : isIdentChar (s.headD '\x00') = true
    · rw [if_pos hid] at h
      revert h
      generalize String.mk (List.map Char.toLower (List.takeWhile isIdentChar s)) = nm
      generalize List.dropWhile isIdentChar s = r0
      intro h
      cases hpfa : parseFuncArgument fuel r0 with
      | ok p =>
        obtain ⟨base, rest2⟩ := p
        have he : True ∨ True := Or.inl trivial
        simp only [hpfa] at h
        by_cases hc0 : nm = "abs"
        · rw [if_pos hc0] at h
          first
            | (cases h
               first
                 | exact h2 rfl
                 | (rcases he with rfl | rfl
                    · exact h1 rfl
                    · exact h3 rfl))
            | cases h
        · rw [if_neg hc0] at h
          by_cases hc1 : nm = "sqrt"
          · rw [if_pos hc1] at h
            first
              | (cases h
                 first
                   | exact h2 rfl
                   | (rcases he with rfl | rfl
                      · exact h1 rfl
                      · exact h3 rfl))
              | cases h
          · rw [if_neg hc1] at h
            by_cases hc2 : nm = "log"
            · rw [if_pos hc2] at h
              first
                | (cases h
                   first
                     | exact h2 rfl
                     | (rcases he with rfl | rfl
                        · exact h1 rfl
                        · exact h3 rfl))
                | cases h
            · rw [if_neg hc2] at h
              by_cases hc3 : nm = "sin"
              · rw [if_pos hc3] at h
                first
                  | (cases h
                     first
                       | exact h2 rfl
                       | (rcases he with rfl | rfl
                          · exact h1 rfl
                          · exact h3 rfl))
                  | cases h
              · rw [if_neg hc3] at h
                by_cases hc4 : nm = "cos"
                · rw [if_pos hc4] at h
                  first
                    | (cases h
                       first
                         | exact h2 rfl
                         | (rcases he with rfl | rfl
                            · exact h1 rfl
                            · exact h3 rfl))
                    | cases h
                · rw [if_neg hc4] at h
                  by_cases hc5 : nm = "tg" ∨ nm = "tan"
                  · rw [if_pos hc5] at h
                    first
                      | (cases h
                         first
                           | exact h2 rfl
                           | (rcases he with rfl | rfl
                              · exact h1 rfl
                              · exact h3 rfl))
                      | cases h
                  · rw [if_neg hc5] at h
                    by_cases hc6 : nm = "ctg" ∨ nm = "cotan"
                    · rw [if_pos hc6] at h
                      first
                        | (cases h
                           first
                             | exact h2 rfl
                             | (rcases he with rfl | rfl
                                · exact h1 rfl
                                · exact h3 rfl))
                        | cases h
                    · rw [if_neg hc6] at h
                      by_cases hc7 : nm = "asin" ∨ nm = "arcsin"
                      · rw [if_pos hc7] at h
                        first
                          | (cases h
                             first
                               | exact h2 rfl
                               | (rcases he with rfl | rfl
                                  · exact h1 rfl
                                  · exact h3 rfl))
                          | cases h
                      · rw [if_neg hc7] at h
                        by_cases hc8 : nm = "acos" ∨ nm = "arccos"
                        · rw [if_pos hc8] at h
                          first
                            | (cases h
                               first
                                 | exact h2 rfl
                                 | (rcases he with rfl | rfl
                                    · exact h1 rfl
                                    · exact h3 rfl))
                            | cases h
                        · rw [if_neg hc8] at h
                          by_cases hc9 : nm = "atan" ∨ nm = "arctan"
                          · rw [if_pos hc9] at h
                            first
                              | (cases h
                                 first
                                   | exact h2 rfl
                                   | (rcases he with rfl | rfl
                                      · exact h1 rfl
                                      · exact h3 rfl))
                              | cases h
                          · rw [if_neg hc9] at h
                            by_cases hc10 : nm = "exp"
                            · rw [if_pos hc10] at h
                              first
                                | (cases h
                                   first
                                     | exact h2 rfl
                                     | (rcases he with rfl | rfl
                                        · exact h1 rfl
                                        · exact h3 rfl))
                                | cases h
                            · rw [if_neg hc10] at h
                              by_cases hc11 : nm = "root"
                              · rw [if_pos hc11] at h
                                first
                                  | (cases h
                                     first
                                       | exact h2 rfl
                                       | (rcases he with rfl | rfl
                                          · exact h1 rfl
                                          · exact h3 rfl))
                                  | cases h
                              · rw [if_neg hc11] at h
                                by_cases hc12 : nm = "pi"
                                · rw [if_pos hc12] at h
                                  first
                                    | (cases h
                                       first
                                         | exact h2 rfl
                                         | (rcases he with rfl | rfl
                                            · exact h1 rfl
                                            · exact h3 rfl))
                                    | cases h
                                · rw [if_neg hc12] at h
                                  by_cases hc13 : nm = "e"
                                  · rw [if_pos hc13] at h
                                    first
                                      | (cases h
                                         first
                                           | exact h2 rfl
                                           | (rcases he with rfl | rfl
                                              · exact h1 rfl
                                              · exact h3 rfl))
                                      | cases h
                                  · rw [if_neg hc13] at h
                                    by_cases hc14 : nm = "phi"
                                    · rw [if_pos hc14] at h
                                      first
                                        | (cases h
                                           first
                                             | exact h2 rfl
                                             | (rcases he with rfl | rfl
                                                · exact h1 rfl
                                                · exact h3 rfl))
                                        | cases h
                                    · rw [if_neg hc14] at h
                                      exact h2 (Except.error.inj h).symm
      | error e =>
        have he : e = "fuel" ∨ e = "Unable to parse function argument" := by
          rcases parseFuncArgument_error_shape fuel r0 with ⟨v, r, hok⟩ | hf | hu
          · rw [hpfa] at hok; cases hok
          · rw [hpfa] at hf; exact Or.inl (Except.error.inj hf)
          · rw [hpfa] at hu; exact Or.inr (Except.error.inj hu)
        simp only [hpfa] at h
        by_cases hc0 : nm = "abs"
        · rw [if_pos hc0] at h
          first
            | (cases h
               first
                 | exact h2 rfl
                 | (rcases he with rfl | rfl
                    · exact h1 rfl
                    · exact h3 rfl))
            | cases h
        · rw [if_neg hc0] at h
          by_cases hc1 : nm = "sqrt"
          · rw [if_pos hc1] at h
            first
              | (cases h
                 first
                   | exact h2 rfl
                   | (rcases he with rfl | rfl
                      · exact h1 rfl
                      · exact h3 rfl))
              | cases h
          · rw [if_neg hc1] at h
            by_cases hc2 : nm = "log"
            · rw [if_pos hc2] at h
              first
                | (cases h
                   first
                     | exact h2 rfl
                     | (rcases he with rfl | rfl
                        · exact h1 rfl
                        · exact h3 rfl))
                | cases h
            · rw [if_neg hc2] at h
              by_cases hc3 : nm = "sin"
              · rw [if_pos hc3] at h
                first
                  | (cases h
                     first
                       | exact h2 rfl
                       | (rcases he with rfl | rfl
                          · exact h1 rfl
                          · exact h3 rfl))
                  | cases h
              · rw [if_neg hc3] at h
                by_cases hc4 : nm = "cos"
                · rw [if_pos hc4] at h
                  first
                    | (cases h
                       first
                         | exact h2 rfl
                         | (rcases he with rfl | rfl
                            · exact h1 rfl
                            · exact h3 rfl))
                    | cases h
                · rw [if_neg hc4] at h
                  by_cases hc5 : nm = "tg" ∨ nm = "tan"
                  · rw [if_pos hc5] at h
                    first
                      | (cases h
                         first
                           | exact h2 rfl
                           | (rcases he with rfl | rfl
                              · exact h1 rfl
                              · exact h3 rfl))
                      | cases h
                  · rw [if_neg hc5] at h
                    by_cases hc6 : nm = "ctg" ∨ nm = "cotan"
                    · rw [if_pos hc6] at h
                      first
                        | (cases h
                           first
                             | exact h2 rfl
                             | (rcases he with rfl | rfl
                                · exact h1 rfl
                                · exact h3 rfl))
                        | cases h
                    · rw [if_neg hc6] at h
                      by_cases hc7 : nm = "asin" ∨ nm = "arcsin"
                      · rw [if_pos hc7] at h
                        first
                          | (cases h
                             first
                               | exact h2 rfl
                               | (rcases he with rfl | rfl
                                  · exact h1 rfl
                                  · exact h3 rfl))
                          | cases h
                      · rw [if_neg hc7] at h
                        by_cases hc8 : nm = "acos" ∨ nm = "arccos"
                        · rw [if_pos hc8] at h
                          first
                            | (cases h
                               first
                                 | exact h2 rfl
                                 | (rcases he with rfl | rfl
                                    · exact h1 rfl
                                    · exact h3 rfl))
                            | cases h
                        · rw [if_neg hc8] at h
                          by_cases hc9 : nm = "atan" ∨ nm = "arctan"
                          · rw [if_pos hc9] at h
                            first
                              | (cases h
                                 first
                                   | exact h2 rfl
                                   | (rcases he with rfl | rfl
                                      · exact h1 rfl
                                      · exact h3 rfl))
                              | cases h
                          · rw [if_neg hc9] at h
                            by_cases hc10 : nm = "exp"
                            · rw [if_pos hc10] at h
                              first
                                | (cases h
                                   first
                                     | exact h2 rfl
                                     | (rcases he with rfl | rfl
                                        · exact h1 rfl
                                        · exact h3 rfl))
                                | cases h
                            · rw [if_neg hc10] at h
                              by_cases hc11 : nm = "root"
                              · rw [if_pos hc11] at h
                                first
                                  | (cases h
                                     first
                                       | exact h2 rfl
                                       | (rcases he with rfl | rfl
                                          · exact h1 rfl
                                          · exact h3 rfl))
                                  | cases h
                              · rw [if_neg hc11] at h
                                by_cases hc12 : nm = "pi"
                                · rw [if_pos hc12] at h
                                  first
                                    | (cases h
                                       first
                                         | exact h2 rfl
                                         | (rcases he with rfl | rfl
                                            · exact h1 rfl
                                            · exact h3 rfl))
                                    | cases h
                                · rw [if_neg hc12] at h
                                  by_cases hc13 : nm = "e"
                                  · rw [if_pos hc13] at h
                                    first
                                      | (cases h
                                         first
                                           | exact h2 rfl
                                           | (rcases he with rfl | rfl
                                              · exact h1 rfl
                                              · exact h3 rfl))
                                      | cases h
                                  · rw [if_neg hc13] at h
                                    by_cases hc14 : nm = "phi"
                                    · rw [if_pos hc14] at h
                                      first
                                        | (cases h
                                           first
                                             | exact h2 rfl
                                             | (rcases he with rfl | rfl
                                                · exact h1 rfl
                                                · exact h3 rfl))
                                        | cases h
                                    · rw [if_neg hc14] at h
                                      exact h2 (Except.error.inj h).symm
    · rw [if_neg hid] at h
      by_cases hdg : isDigitChar (s.headD '\x00') = true
      · rw [if_pos hdg] at h
        have hbuf : ¬ (List.takeWhile isDigitChar s).length = 0 := by
          cases s with
          | nil => exact absurd hdg (by decide)
          | cons a as =>
            rw [List.takeWhile_cons_of_pos (by simpa using hdg)]
            simp
        rw [if_neg hbuf] at h
        exact parseNumber_error_ne _ _ _ h4 h
      · rw [if_neg hdg] at h
        exact tokenFromChar_error_ne _ _ _ hlen h

lemma tokenizeAux_error_ne : ∀ (fuel : ℕ) (s : List Char) (msg : String),
    msg ≠ "fuel" → (∀ (f2 : ℕ) (s2 : List Char), parseToken f2 s2 ≠ .error msg) →
    tokenizeAux fuel s ≠ .error msg := by
  intro fuel
  induction fuel with
  | zero => intro s msg h1 h2 h; exact h1 (Except.error.inj h).symm
  | succ fuel ih =>
    intro s msg h1 h2 h
    simp only [tokenizeAux] at h
    by_cases hz : s.headD '\x00' = '\x00'
    · rw [if_pos hz] at h; exact absurd h (by simp)
    · rw [if_neg hz] at h
      by_cases hw : (s.headD '\x00').isWhitespace = true
      · rw [if_pos hw] at h; exact ih s.tail msg h1 h2 h
      · rw [if_neg hw] at h
        cases hpt : parseToken (fuel+1) s with
        | ok p =>
          obtain ⟨t, rest⟩ := p
          simp only [hpt] at h
          cases htk : tokenizeAux fuel rest with
          | ok ts2 => simp only [htk] at h; exact absurd h (by simp)
          | error e2 =>
            simp only [htk] at h
            exact ih rest msg h1 h2 ((Except.error.inj h) ▸ htk)
        | error e =>
          simp only [hpt] at h
          exact h2 (fuel+1) s ((Except.error.inj h) ▸ hpt)

/-- C10: tokenization is total and never panics: the numeric
branch's buffer always starts with the digit that selected the
branch, so the malformed-literal guard (whose condition would make
the `unwrap` panic) never fires and the dedicated "Invalid numeric
literal" error is unreachable at every fuel; malformed numeral runs
such as `"1..2"` or a lone `"."` are rejected by the float parse of
the buffer instead. -/
theorem tokenize_total_no_invalid_numeric :
    (∀ (fuel : ℕ) (s : List Char),
      parseToken fuel s ≠ .error "panicked at Option::unwrap on a None value" ∧
      parseToken fuel s ≠ .error "Invalid numeric literal") ∧
    (∀ (fuel : ℕ) (s : List Char),
      tokenizeAux fuel s ≠ .error "panicked at Option::unwrap on a None value" ∧
      tokenizeAux fuel s ≠ .error "Invalid numeric literal") ∧
    tokenize "1..2" = .error "invalid float literal" ∧
    tokenize "." = .error "invalid float literal" := by
  have hp : ∀ (fuel : ℕ) (s : List Char),
      parseToken fuel s ≠ .error "panicked at Option::unwrap on a None value" :=
    fun fuel s => parseToken_error_ne fuel s _
      (by decide) (by decide) (by decide) (by decide) (by decide)
  have hi : ∀ (fuel : ℕ) (s : List Char),
      parseToken fuel s ≠ .error "Invalid numeric literal" :=
    fun fuel s => parseToken_error_ne fuel s _
      (by decide) (by decide) (by decide) (by decide) (by decide)
  exact ⟨fun fuel s => ⟨hp fuel s, hi fuel s⟩,
    fun fuel s => ⟨tokenizeAux_error_ne fuel s _ (by decide) hp,
                   tokenizeAux_error_ne fuel s _ (by decide) hi⟩,
    rfl, rfl⟩

/-- Witness for the C10 theorem at a concrete fuel and input. -/
theorem tokenize_total_no_invalid_numeric_w :
    tokenizeAux 2 ['1'] ≠ .error "Invalid numeric literal" :=
  (tokenize_total_no_invalid_numeric.2.1 2 ['1']).2

/-- C7: tokenizing `"sqrt log2 abs sin cos"` yields exactly
`[Sqrt, Log 2, Abs, Sin, Cos]`; in general after the identifiers
`log` or `root` the tokenizer immediately tokenizes the next token,
a literal's value becomes the function's parameter, and anything
that is not a literal — a lexing failure included — makes
tokenization fail with the function-argument error. -/
theorem log_root_require_literal_argument :
    tokenize "sqrt log2 abs sin cos" =
      .ok ⟨[.function .sqrt, .function (.log 2), .function .abs,
            .function .sin, .function .cos], 0⟩ ∧
    (∀ (fuel : ℕ) (s : List Char) (v : ℝ) (rest : List Char),
      parseToken fuel s = .ok (.literal v, rest) →
      parseFuncArgument (fuel+1) s = .ok (v, rest)) ∧
    (∀ (fuel : ℕ) (s : List Char),
      (∀ (v : ℝ) (rest : List Char), parseToken fuel s ≠ .ok (.literal v, rest)) →
      parseFuncArgument (fuel+1) s = .error "Unable to parse function argument") ∧
    (∀ (fuel : ℕ) (s : List Char) (v : ℝ) (rest : List Char),
      ¬ isIdentChar (s.headD '\x00') = true →
      parseToken fuel s = .ok (.literal v, rest) →
      parseToken (fuel+2) ('l' :: 'o' :: 'g' :: s) = .ok (.function (.log v), rest)) ∧
    (∀ (fuel : ℕ) (s : List Char),
      ¬ isIdentChar (s.headD '\x00') = true →
      (∀ (v : ℝ) (rest : List Char), parseToken fuel s ≠ .ok (.literal v, rest)) →
      parseToken (fuel+2) ('l' :: 'o' :: 'g' :: s) =
        .error "Unable to parse function argument") ∧
    (∀ (fuel : ℕ) (s : List Char) (v : ℝ) (rest : List Char),
      ¬ isIdentChar (s.headD '\x00') = true →
      parseToken fuel s = .ok (.literal v, rest) →
      parseToken (fuel+2) ('r' :: 'o' :: 'o' :: 't' :: s) =
        .ok (.function (.root v), rest)) ∧
    (∀ (fuel : ℕ) (s : List Char),
      ¬ isIdentChar (s.headD '\x00') = true →
      (∀ (v : ℝ) (rest : List Char), parseToken fuel s ≠ .ok (.literal v, rest)) →
      parseToken (fuel+2) ('r' :: 'o' :: 'o' :: 't' :: s) =
        .error "Unable to parse function argument") := by
  have hfa_ok : ∀ (fuel : ℕ) (s : List Char) (v : ℝ) (rest : List Char),
      parseToken fuel s = .ok (.literal v, rest) →
      parseFuncArgument (fuel+1) s = .ok (v, rest) := by
    intro fuel s v rest hpt
    simp [parseFuncArgument, hpt]
  have hfa_err : ∀ (fuel : ℕ) (s : List Char),
      (∀ (v : ℝ) (rest : List Char), parseToken fuel s ≠ .ok (.literal v, rest)) →
      parseFuncArgument (fuel+1) s = .error "Unable to parse function argument" := by
    intro fuel s hne
    cases hpt : parseToken fuel s with
    | ok p =>
      obtain ⟨t, r⟩ := p
      cases t
      case literal v => exact absurd hpt (hne v r)
      all_goals simp [parseFuncArgument, hpt]
    | error e => simp [parseFuncArgument, hpt]
  have hlog : ∀ (fuel : ℕ) (s : List Char),
      ¬ isIdentChar (s.headD '\x00') = true →
      parseToken (fuel+2) ('l' :: 'o' :: 'g' :: s) =
        (match parseFuncArgument (fuel+1) s with
         | .ok (base, rest2) => .ok (.function (.log base), rest2)
         | .error e => .error e) := by
    intro fuel s hhead
    have hbuf : List.takeWhile isIdentChar ('l' :: 'o' :: 'g' :: s) = ['l', 'o', 'g'] := by
      rw [List.takeWhile_cons_of_pos (by decide), List.takeWhile_cons_of_pos (by decide),
          List.takeWhile_cons_of_pos (by decide), takeWhile_eq_nil_of_head _ _ hhead]
    have hdrop : List.dropWhile isIdentChar ('l' :: 'o' :: 'g' :: s) = s := by
      rw [List.dropWhile_cons_of_pos (by decide), List.dropWhile_cons_of_pos (by decide),
          List.dropWhile_cons_of_pos (by decide), dropWhile_eq_self_of_head _ _ hhead]
    have hnm : String.mk (List.map Char.toLower ['l', 'o', 'g']) = "log" := rfl
    simp only [parseToken, List.headD_cons, hbuf, hdrop, hnm]
    rw [if_pos (by decide : isIdentChar 'l' = true),
        if_neg (by decide : ¬("log" : String) = "abs"),
        if_neg (by decide : ¬("log" : String) = "sqrt")]
    simp
  have hroot : ∀ (fuel : ℕ) (s : List Char),
      ¬ isIdentChar (s.headD '\x00') = true →
      parseToken (fuel+2) ('r' :: 'o' :: 'o' :: 't' :: s) =
        (match parseFuncArgument (fuel+1) s with
         | .ok (base, rest2) => .ok (.function (.root base), rest2)
         | .error e => .error e) := by
    intro fuel s hhead
    have hbuf : List.takeWhile isIdentChar ('r' :: 'o' :: 'o' :: 't' :: s) =
        ['r', 'o', 'o', 't'] := by
      rw [List.takeWhile_cons_of_pos (by decide), List.takeWhile_cons_of_pos (by decide),
          List.takeWhile_cons_of_pos (by decide), List.takeWhile_cons_of_pos (by decide),
          takeWhile_eq_nil_of_head _ _ hhead]
    have hdrop : List.dropWhile isIdentChar ('r' :: 'o' :: 'o' :: 't' :: s) = s := by
      rw [List.dropWhile_cons_of_pos (by decide), List.dropWhile_cons_of_pos (by decide),
          List.dropWhile_cons_of_pos (by decide), List.dropWhile_cons_of_pos (by decide),
          dropWhile_eq_self_of_head _ _ hhead]
    have hnm : String.mk (List.map Char.toLower ['r', 'o', 'o', 't']) = "root" := rfl
    simp only [parseToken, List.headD_cons, hbuf, hdrop, hnm]
    rw [if_pos (by decide : isIdentChar 'r' = true)]
    simp
  refine ⟨?_, hfa_ok, hfa_err, ?_, ?_, ?_, ?_⟩
  · have h : tokenize "sqrt log2 abs sin cos" =
        .ok ⟨[.function .sqrt, .function (.log (decimalValue ['2'])), .function .abs,
              .function .sin, .function .cos], 0⟩ := rfl
    rw [h, decimalValue_two]
  · intro fuel s v rest hhead hpt
    rw [hlog fuel s hhead, hfa_ok fuel s v rest hpt]
  · intro fuel s hhead hne
    rw [hlog fuel s hhead, hfa_err fuel s hne]
  · intro fuel s v rest hhead hpt
    rw [hroot fuel s hhead, hfa_ok fuel s v rest hpt]
  · intro fuel s hhead hne
    rw [hroot fuel s hhead, hfa_err fuel s hne]

/-- Witness for the C7 theorem: `log` followed by the literal `2`. -/
theorem log_root_require_literal_argument_w :
    parseToken 5 ['l', 'o', 'g', '2'] =
      .ok (.function (.log (decimalValue ['2'])), []) :=
  log_root_require_literal_argument.2.2.2.1 3 ['2'] (decimalValue ['2']) []
    (by decide) rfl

end UniCalc
